import Mathlib

/-!
Verification of the version-conditional layout / environment-guess resolution
logic of the Intel compiler-suite easyblock (`easyblocks/i/intel.py`).

The Python source is shallowly embedded below.  Version strings are parsed and
compared following `distutils.version.LooseVersion` under Python 2 comparison
semantics (numeric tokens compare numerically, string tokens compare
lexicographically by code point, a numeric token is smaller than any string
token, and a shorter token list with an equal prefix is smaller), which is the
interpreter family this code base targeted.  Filesystem probes
(`os.path.isdir` / `os.path.isfile`, relative to the install root) are
abstracted as boolean-valued functions, and the external `get_tbb_gccprefix`
collaborator as an opaque string argument.
-/

/-- A `LooseVersion` token: either an integer (a maximal digit run) or a
string token (stored as the list of character code points).  String tokens
arise from maximal lowercase-letter runs and from maximal runs of separator
characters other than a dot. -/
inductive VTok where
  | num (n : Nat)
  | str (s : List Nat)
deriving DecidableEq, Repr

/-- Pending token being accumulated by the tokenizer. -/
inductive Pend where
  | pnone
  | pnum (n : Nat)
  | plow (s : List Nat)
  | poth (s : List Nat)
deriving DecidableEq, Repr

/-- Emit the pending token, if any (accumulated code-point lists are kept in
reverse and flipped here). -/
def Pend.flush : Pend → List VTok
  | .pnone => []
  | .pnum n => [.num n]
  | .plow s => [.str s.reverse]
  | .poth s => [.str s.reverse]

/-- Tokenizer core, mirroring `LooseVersion.component_re`
(`(\d+ | [a-z]+ | \.)`) with `re.split`: digit runs become integer components,
lowercase runs and runs of other non-dot characters become string components,
and dots are dropped. -/
def tokAux : Pend → List Char → List VTok
  | p, [] => p.flush
  | p, c :: cs =>
    if c.isDigit then
      match p with
      | .pnum n => tokAux (.pnum (n * 10 + (c.toNat - 48))) cs
      | _ => p.flush ++ tokAux (.pnum (c.toNat - 48)) cs
    else if c.isLower then
      match p with
      | .plow s => tokAux (.plow (c.toNat :: s)) cs
      | _ => p.flush ++ tokAux (.plow [c.toNat]) cs
    else if c = '.' then
      p.flush ++ tokAux .pnone cs
    else
      match p with
      | .poth s => tokAux (.poth (c.toNat :: s)) cs
      | _ => p.flush ++ tokAux (.poth [c.toNat]) cs

/-- Parse a version string: `LooseVersion(v).version`, the token list. -/
def parseVersion (v : String) : List VTok :=
  tokAux .pnone v.data

/-- Three-way comparison of natural numbers (Python integer comparison). -/
def ncmp (a b : Nat) : Ordering :=
  if a < b then .lt else if b < a then .gt else .eq

/-- Lexicographic three-way comparison of lists, given a comparison on
elements; a strict prefix is smaller (Python list comparison). -/
def lexCmp (f : α → α → Ordering) : List α → List α → Ordering
  | [], [] => .eq
  | [], _ :: _ => .lt
  | _ :: _, [] => .gt
  | a :: as, b :: bs =>
    match f a b with
    | .eq => lexCmp f as bs
    | o => o

/-- Python 2 comparison of two `LooseVersion` tokens: integers compare
numerically, strings lexicographically, and any integer is smaller than any
string (Python 2 cross-type ordering). -/
def tcmp : VTok → VTok → Ordering
  | .num m, .num n => ncmp m n
  | .str s, .str t => lexCmp ncmp s t
  | .num _, .str _ => .lt
  | .str _, .num _ => .gt

/-- Comparison of two parsed version token lists (Python 2 `cmp` on the
`version` lists of two `LooseVersion` values). -/
def vcmp (a b : List VTok) : Ordering :=
  lexCmp tcmp a b

/-- Strictly-less comparison `LooseVersion(a) < LooseVersion(b)`. -/
def vlt (a b : List VTok) : Prop := vcmp a b = .lt

/-- At-most comparison `LooseVersion(a) <= LooseVersion(b)`. -/
def vle (a b : List VTok) : Prop := vcmp a b ≠ .gt

/-- Strictly-greater comparison `LooseVersion(a) > LooseVersion(b)`. -/
def vgt (a b : List VTok) : Prop := vcmp a b = .gt

instance (a b : List VTok) : Decidable (vlt a b) := by unfold vlt; infer_instance
instance (a b : List VTok) : Decidable (vle a b) := by unfold vle; infer_instance
instance (a b : List VTok) : Decidable (vgt a b) := by unfold vgt; infer_instance

/-! ### Order lemmas for the version comparator -/

theorem ncmp_self (a : Nat) : ncmp a a = .eq := by
  unfold ncmp; split_ifs <;> first | rfl | omega

theorem ncmp_eq_iff (a b : Nat) : ncmp a b = .eq ↔ a = b := by
  unfold ncmp; split_ifs <;> constructor <;> intro h <;>
    first | rfl | omega | simp_all

theorem ncmp_swap (a b : Nat) : (ncmp a b).swap = ncmp b a := by
  unfold ncmp; split_ifs <;> first | rfl | omega

theorem ncmp_lt_trans {a b c : Nat} (h1 : ncmp a b = .lt) (h2 : ncmp b c = .lt) :
    ncmp a c = .lt := by
  unfold ncmp at * ; split_ifs at * <;> first | rfl | omega

theorem lexCmp_cons_lt {f : α → α → Ordering} {a b : α} {as bs : List α}
    (h : f a b = .lt) : lexCmp f (a :: as) (b :: bs) = .lt := by
  show (match f a b with | .eq => lexCmp f as bs | o => o) = .lt
  rw [h]

theorem lexCmp_cons_gt {f : α → α → Ordering} {a b : α} {as bs : List α}
    (h : f a b = .gt) : lexCmp f (a :: as) (b :: bs) = .gt := by
  show (match f a b with | .eq => lexCmp f as bs | o => o) = .gt
  rw [h]

theorem lexCmp_cons_eq {f : α → α → Ordering} {a b : α} {as bs : List α}
    (h : f a b = .eq) : lexCmp f (a :: as) (b :: bs) = lexCmp f as bs := by
  show (match f a b with | .eq => lexCmp f as bs | o => o) = lexCmp f as bs
  rw [h]

theorem lexCmp_self (f : α → α → Ordering) (hf : ∀ a, f a a = .eq) :
    ∀ l : List α, lexCmp f l l = .eq
  | [] => rfl
  | a :: as => by
    rw [lexCmp_cons_eq (hf a)]
    exact lexCmp_self f hf as

theorem lexCmp_eq_iff (f : α → α → Ordering) (hf : ∀ a b, f a b = .eq ↔ a = b) :
    ∀ l m : List α, lexCmp f l m = .eq ↔ l = m
  | [], [] => by simp [lexCmp]
  | [], _ :: _ => by simp [lexCmp]
  | _ :: _, [] => by simp [lexCmp]
  | a :: as, b :: bs => by
    rcases h : f a b with _ | _ | _
    · rw [lexCmp_cons_lt h]
      constructor
      · intro hc; cases hc
      · intro hc
        injection hc with hc1 hc2
        subst hc1
        rw [(hf a a).mpr rfl] at h
        cases h
    · have hab : a = b := (hf a b).mp h
      subst hab
      rw [lexCmp_cons_eq h]
      simp [lexCmp_eq_iff f hf as bs]
    · rw [lexCmp_cons_gt h]
      constructor
      · intro hc; cases hc
      · intro hc
        injection hc with hc1 hc2
        subst hc1
        rw [(hf a a).mpr rfl] at h
        cases h

theorem lexCmp_swap (f : α → α → Ordering) (hf : ∀ a b, (f a b).swap = f b a) :
    ∀ l m : List α, (lexCmp f l m).swap = lexCmp f m l
  | [], [] => rfl
  | [], _ :: _ => rfl
  | _ :: _, [] => rfl
  | a :: as, b :: bs => by
    rcases h : f a b with _ | _ | _
    · have hba : f b a = .gt := by rw [← hf a b, h]; rfl
      rw [lexCmp_cons_lt h, lexCmp_cons_gt hba]
      rfl
    · have hba : f b a = .eq := by rw [← hf a b, h]; rfl
      rw [lexCmp_cons_eq h, lexCmp_cons_eq hba]
      exact lexCmp_swap f hf as bs
    · have hba : f b a = .lt := by rw [← hf a b, h]; rfl
      rw [lexCmp_cons_gt h, lexCmp_cons_lt hba]
      rfl

theorem lexCmp_lt_trans (f : α → α → Ordering)
    (hf : ∀ a b, f a b = .eq ↔ a = b)
    (ht : ∀ a b c, f a b = .lt → f b c = .lt → f a c = .lt) :
    ∀ l m n : List α, lexCmp f l m = .lt → lexCmp f m n = .lt → lexCmp f l n = .lt
  | [], [], _, h1, _ => by simp [lexCmp] at h1
  | [], _ :: _, [], _, h2 => by simp [lexCmp] at h2
  | [], _ :: _, _ :: _, _, _ => rfl
  | _ :: _, [], _, h1, _ => by simp [lexCmp] at h1
  | _ :: _, _ :: _, [], _, h2 => by simp [lexCmp] at h2
  | a :: as, b :: bs, c :: cs, h1, h2 => by
    rcases hab : f a b with _ | _ | _
    · rcases hbc : f b c with _ | _ | _
      · exact lexCmp_cons_lt (ht a b c hab hbc)
      · have hbc' : b = c := (hf b c).mp hbc
        subst hbc'
        exact lexCmp_cons_lt hab
      · rw [lexCmp_cons_gt hbc] at h2
        cases h2
    · have hab' : a = b := (hf a b).mp hab
      subst hab'
      rw [lexCmp_cons_eq hab] at h1
      rcases hac : f a c with _ | _ | _
      · exact lexCmp_cons_lt hac
      · have hac' : a = c := (hf a c).mp hac
        subst hac'
        rw [lexCmp_cons_eq hac] at h2
        rw [lexCmp_cons_eq hac]
        exact lexCmp_lt_trans f hf ht as bs cs h1 h2
      · rw [lexCmp_cons_gt hac] at h2
        cases h2
    · rw [lexCmp_cons_gt hab] at h1
      cases h1

theorem tcmp_eq_iff (a b : VTok) : tcmp a b = .eq ↔ a = b := by
  cases a <;> cases b <;> simp [tcmp, ncmp_eq_iff, lexCmp_eq_iff ncmp ncmp_eq_iff]

theorem tcmp_self (a : VTok) : tcmp a a = .eq := (tcmp_eq_iff a a).mpr rfl

theorem tcmp_swap (a b : VTok) : (tcmp a b).swap = tcmp b a := by
  cases a <;> cases b
  · exact ncmp_swap _ _
  · rfl
  · rfl
  · exact lexCmp_swap ncmp ncmp_swap _ _

theorem tcmp_lt_trans (a b c : VTok) (h1 : tcmp a b = .lt) (h2 : tcmp b c = .lt) :
    tcmp a c = .lt := by
  cases a <;> cases b <;> cases c <;> simp_all [tcmp]
  · exact ncmp_lt_trans h1 h2
  · exact lexCmp_lt_trans ncmp ncmp_eq_iff (fun _ _ _ => ncmp_lt_trans) _ _ _ h1 h2

theorem vcmp_self (a : List VTok) : vcmp a a = .eq :=
  lexCmp_self tcmp tcmp_self a

theorem vcmp_eq_iff (a b : List VTok) : vcmp a b = .eq ↔ a = b :=
  lexCmp_eq_iff tcmp tcmp_eq_iff a b

theorem vcmp_swap (a b : List VTok) : (vcmp a b).swap = vcmp b a :=
  lexCmp_swap tcmp tcmp_swap a b

theorem vcmp_lt_trans {a b c : List VTok} (h1 : vcmp a b = .lt) (h2 : vcmp b c = .lt) :
    vcmp a c = .lt :=
  lexCmp_lt_trans tcmp tcmp_eq_iff tcmp_lt_trans a b c h1 h2

/-- Not `a < b` is the same as `b <= a`: the comparator is total. -/
theorem not_vlt_iff_vle (a b : List VTok) : ¬ vlt a b ↔ vle b a := by
  unfold vlt vle
  rw [← vcmp_swap a b]
  rcases vcmp a b with _ | _ | _ <;> simp [Ordering.swap]

/-- From `a <= b` and `b < c` conclude `a < c`. -/
theorem vlt_of_vle_of_vlt {a b c : List VTok} (h1 : vle a b) (h2 : vlt b c) :
    vlt a c := by
  unfold vle at h1
  unfold vlt at *
  rcases h : vcmp a b with _ | _ | _
  · exact vcmp_lt_trans h h2
  · rw [(vcmp_eq_iff a b).mp h]; exact h2
  · exact absurd h h1

/-- From `a < b` and `b <= c` conclude `a < c`. -/
theorem vlt_of_vlt_of_vle {a b c : List VTok} (h1 : vlt a b) (h2 : vle b c) :
    vlt a c := by
  unfold vle at h2
  unfold vlt at *
  rcases h : vcmp b c with _ | _ | _
  · exact vcmp_lt_trans h1 h
  · rw [← (vcmp_eq_iff b c).mp h]; exact h1
  · exact absurd h h2

/-- Transitivity of `vle`. -/
theorem vle_trans {a b c : List VTok} (h1 : vle a b) (h2 : vle b c) : vle a c := by
  unfold vle at *
  intro hac
  have hca : vcmp c a = .lt := by rw [← vcmp_swap a c, hac]; rfl
  rcases h : vcmp b c with _ | _ | _
  · have hba : vcmp b a = .lt := vcmp_lt_trans h hca
    have hab : vcmp a b = .gt := by rw [← vcmp_swap b a, hba]; rfl
    exact h1 hab
  · have hbc : b = c := (vcmp_eq_iff b c).mp h
    subst hbc
    have hab : vcmp a b = .gt := by rw [← vcmp_swap b a, hca]; rfl
    exact h1 hab
  · exact h2 h

/-- At-least comparison for parsed versions (`LooseVersion` `>=`). -/
def vge (a b : List VTok) : Prop := vcmp a b ≠ .lt

instance (a b : List VTok) : Decidable (vge a b) := by unfold vge; infer_instance

/-! ### Path and string helpers (`os.path` fragments used by the easyblock) -/

/-- Whether a string begins with a slash (an absolute path). -/
def startsWithSlash (b : String) : Bool :=
  match b.data with
  | [] => false
  | c :: _ => c = '/'

/-- Whether a string ends with a slash. -/
def endsWithSlash (a : String) : Bool :=
  match a.data.getLast? with
  | some c => c = '/'
  | none => false

/-- Join two path components (`os.path.join`, POSIX semantics, as used by the
easyblock: the right component wins if absolute, otherwise the components are
joined with a single separator). -/
def pjoin (a b : String) : String :=
  if startsWithSlash b then b
  else if a = "" then b
  else if endsWithSlash a then a ++ b
  else a ++ "/" ++ b

/-- Compute `v.split('.')[0]`: the part of the string before the first dot (the whole
string when there is no dot). -/
def dotHead (v : String) : String :=
  String.mk (v.data.takeWhile (fun c => c != '.'))

/-! ### Data model -/

/-- The easyconfig values the embedded methods read: `official_version`,
`m32`, and `hide_mpi` (defaults `m32 = False`, `hide_mpi = True` in the
source). -/
structure Cfg where
  official_version : String
  m32 : Bool
  hide_mpi : Bool
deriving DecidableEq, Repr

/-- Read-only filesystem probe relative to the install root:
`os.path.isdir` / `os.path.isfile` on `os.path.join(self.installdir, p)`. -/
structure FS where
  isdir : String → Bool
  isfile : String → Bool

/-- The `self.comp_libs_subdir` value, as computed in `EB_intel.__init__`:
`compilers_and_libraries_<version>/linux` when `official_version >= 2016`,
otherwise left `None`. -/
def comp_libs_subdir (v : String) : Option String :=
  if vge (parseVersion v) (parseVersion "2016") then
    some (pjoin ("compilers_and_libraries_" ++ v) "linux")
  else none

/-- The binary-prefix / library-prefix pair resolved at the start of
`EB_intel.sanity_check_step` (defaults `bin/intel64` and `lib/intel64`,
overridden by the version-threshold rules). -/
def resolve_layout (v : String) : String × String :=
  if vge (parseVersion v) (parseVersion "2011") then
    if vle (parseVersion v) (parseVersion "2011.3.174") then ("bin", "lib/intel64")
    else if vge (parseVersion v) (parseVersion "2013_sp1") then ("bin", "lib/intel64")
    else ("bin/intel64", "compiler/lib/intel64")
  else ("bin/intel64", "lib/intel64")

/-- The custom paths and commands `EB_intel.sanity_check_step` hands to the
generic sanity check. -/
structure SanitySpec where
  files : List String
  dirs : List String
  commands : List String
deriving DecidableEq, Repr

/-- The `EB_intel.sanity_check_step` custom paths, parameterized by the shared-library
extension the external `get_shared_lib_ext` collaborator reports. -/
def sanity_check_step (v : String) (shlib_ext : String) : SanitySpec :=
  let bl := resolve_layout v
  let binfiles := ["icc", "icpc"] ++
    (if vlt (parseVersion v) (parseVersion "2014") then ["idb"] else [])
  let binaries := binfiles.map (fun f => pjoin bl.1 f)
  let libraries := ["iomp5.a", "iomp5." ++ shlib_ext].map (fun l => pjoin bl.2 ("lib" ++ l))
  let sanity_check_files := binaries ++ libraries ++
    (if vgt (parseVersion v) (parseVersion "2015") then ["include/omp.h"] else [])
  let dirs : List String :=
    match comp_libs_subdir v with
    | some d => [d]
    | none => []
  { files := sanity_check_files, dirs := dirs, commands := ["which icc"] }

/-! ### Silent-configuration naming selection (`EB_intel.install_step`) -/

/-- The legacy silent-configuration key-name map. -/
structure SilentCfgNames where
  activation_name : String
  license_file_name : String
deriving DecidableEq, Repr

/-- Modelled from the spec: the constant `ACTIVATION_NAME_2012` is imported
from the generic Intel base easyblock (`intelbase`), which is not part of this
repository; it is treated as an abstract string marker whose exact value is
immaterial to the claims. -/
def ACTIVATION_NAME_2012 : String := "ACTIVATION_NAME_2012"

/-- Modelled from the spec: the constant `LICENSE_FILE_NAME_2012` is imported
from the generic Intel base easyblock (`intelbase`), which is not part of this
repository; it is treated as an abstract string marker whose exact value is
immaterial to the claims. -/
def LICENSE_FILE_NAME_2012 : String := "LICENSE_FILE_NAME_2012"

/-- The `silent_cfg_names_map` value `EB_intel.install_step` computes before
delegating to the base installer: the legacy naming map for versions before
`2013_sp1`, `None` afterwards. -/
def silent_cfg_names_map (v : String) : Option SilentCfgNames :=
  if vlt (parseVersion v) (parseVersion "2013_sp1") then
    some { activation_name := ACTIVATION_NAME_2012,
           license_file_name := LICENSE_FILE_NAME_2012 }
  else none

/-- Externally visible actions of `EB_intel.install_step`, in order. -/
inductive InstallEvent where
  | runInstaller (m : Option SilentCfgNames)
  | copyLicense
deriving DecidableEq, Repr

/-- The `EB_intel.install_step` method as its trace of external actions: select the
naming map, invoke the base installer with it, then copy the license file. -/
def install_step (v : String) : List InstallEvent :=
  let m := silent_cfg_names_map v
  [InstallEvent.runInstaller m, InstallEvent.copyLicense]

/-! ### The environment-variable guess map (`EB_intel.make_module_req_guess`) -/

/-- The `guesses` dictionary built by `make_module_req_guess`.  Keys that are
present from the start are plain lists; keys only added on some paths
(`MIC_LD_LIBRARY_PATH`, `GDB_CROSS`, `GDBSERVER_MIC`, `IDB_HOME`,
`LIBRARY_PATH`) are `Option`s, `none` meaning the key is absent. -/
structure Guesses where
  CLASSPATH : List String
  CPATH : List String
  DAALROOT : List String
  IPPROOT : List String
  LD_LIBRARY_PATH : List String
  MANPATH : List String
  PATH : List String
  TBBROOT : List String
  MKLROOT : List String
  PSTLROOT : List String
  INFOPATH : List String
  PKG_CONFIG_PATH : List String
  MIC_LD_LIBRARY_PATH : Option (List String)
  GDB_CROSS : Option (List String)
  GDBSERVER_MIC : Option (List String)
  IDB_HOME : Option (List String)
  LIBRARY_PATH : Option (List String)
deriving DecidableEq, Repr

/-- The base `guesses` dictionary seeded at the top of
`make_module_req_guess`. -/
def seed_guesses (docpath : String) : Guesses where
  CLASSPATH := ["daal/lib/daal.jar"]
  CPATH := ["ipp/include", "mkl/include", "mkl/include/fftw", "tbb/include"]
  DAALROOT := ["daal"]
  IPPROOT := ["ipp"]
  LD_LIBRARY_PATH := ["lib"]
  MANPATH := ["debugger/gdb/intel64/share/man", "man/common", "man/en_US", "share/man"]
  PATH := ["tbb/bin", "mkl/bin"]
  TBBROOT := ["tbb"]
  MKLROOT := ["mkl"]
  PSTLROOT := ["pstl"]
  INFOPATH := [docpath]
  PKG_CONFIG_PATH := ["mkl/bin/pkgconfig"]
  MIC_LD_LIBRARY_PATH := none
  GDB_CROSS := none
  GDBSERVER_MIC := none
  IDB_HOME := none
  LIBRARY_PATH := none

/-- The `for key, subdirs in guesses.items()` rewrite loop: apply `f` to every
fragment of every key currently in the dictionary. -/
def mapGuesses (f : String → String) (g : Guesses) : Guesses where
  CLASSPATH := g.CLASSPATH.map f
  CPATH := g.CPATH.map f
  DAALROOT := g.DAALROOT.map f
  IPPROOT := g.IPPROOT.map f
  LD_LIBRARY_PATH := g.LD_LIBRARY_PATH.map f
  MANPATH := g.MANPATH.map f
  PATH := g.PATH.map f
  TBBROOT := g.TBBROOT.map f
  MKLROOT := g.MKLROOT.map f
  PSTLROOT := g.PSTLROOT.map f
  INFOPATH := g.INFOPATH.map f
  PKG_CONFIG_PATH := g.PKG_CONFIG_PATH.map f
  MIC_LD_LIBRARY_PATH := g.MIC_LD_LIBRARY_PATH.map (List.map f)
  GDB_CROSS := g.GDB_CROSS.map (List.map f)
  GDBSERVER_MIC := g.GDBSERVER_MIC.map (List.map f)
  IDB_HOME := g.IDB_HOME.map (List.map f)
  LIBRARY_PATH := g.LIBRARY_PATH.map (List.map f)

/-- Lines 222 to 227 of the source: `composer_xe_<version>`, replaced by
`composerxe-<version>` when the former is not a directory under the install
root and the latter is. -/
def resolve_composer_dir (v : String) (fs : FS) : String :=
  let p := "composer_xe_" ++ v
  if fs.isdir p = false then
    let cand := "composerxe-" ++ v
    if fs.isdir cand = true then cand else p
  else p

/-- First half of `make_module_req_guess` (lines 160 to 246): seed the base
map, apply the 32-bit / 64-bit branch, the MPI-visibility branch (whose body
calls `list.append` with two arguments, a `TypeError` at runtime, modelled as
an error result), the version-layout branch computing `prefix` and
`self.debuggerpath`, and the final `lib/intel64` append.  Returns the guesses
together with `prefix` and `debuggerpath`. -/
def guess_branch (cfg : Cfg) (fs : FS) (tbbgcc : String) :
    Except String (Guesses × Option String × Option String) :=
  let docpath := "documentation_" ++ dotHead cfg.official_version
  let guesses := seed_guesses docpath
  if cfg.m32 then
    .ok ({ guesses with
           PATH := guesses.PATH ++ ["bin/ia32", "tbb/bin/ia32"],
           LD_LIBRARY_PATH := guesses.LD_LIBRARY_PATH ++ ["lib/ia32"] },
         none, none)
  else
    let guesses := { guesses with
      PATH := guesses.PATH ++
        ["bin/intel64", "debugger/gdb/intel64/bin", "ipp/bin/intel64",
         "tbb/bin/emt64", "tbb/bin/intel64"],
      LD_LIBRARY_PATH := guesses.LD_LIBRARY_PATH ++
        ["tbb/lib/intel64/" ++ tbbgcc, "mkl/lib/intel64", "ipp/lib/intel64",
         "debugger/ipt/intel64/lib", "compiler/lib/intel64"],
      MIC_LD_LIBRARY_PATH := some
        ["compiler/lib/mic", "debugger/ipt/lib/mic", "ipp/lib/mic",
         "mkl/lib/mic", "tbb/lib/mic"] }
    if cfg.hide_mpi = false then
      .error "TypeError: append() takes exactly one argument (2 given)"
    else
      let step :=
        if vlt (parseVersion cfg.official_version) (parseVersion "2016") then
          let prefx := resolve_composer_dir cfg.official_version fs
          let dbg :=
            if vge (parseVersion cfg.official_version) (parseVersion "2015") then
              some (pjoin prefx "debugger")
            else none
          (guesses, some prefx, dbg)
        else
          let dbg := "debugger_" ++ dotHead cfg.official_version
          ({ guesses with
             LD_LIBRARY_PATH := guesses.LD_LIBRARY_PATH ++
               [pjoin dbg "libipt/intel64/lib", "daal/lib/intel64_lin"] },
           comp_libs_subdir cfg.official_version, some dbg)
      .ok ({ step.1 with LD_LIBRARY_PATH := step.1.LD_LIBRARY_PATH ++ ["lib/intel64"] },
           step.2.1, step.2.2)

/-- Second half of `make_module_req_guess` (lines 250 to 315): the debugger
`PATH` append, the prefix rewrite with its post-rewrite extensions and the
`GDB_CROSS` / `GDBSERVER_MIC` computation, the `IDB_HOME` probe, and the final
`LIBRARY_PATH` snapshot. -/
def guess_post (fs : FS) (docpath : String) (g0 : Guesses)
    (prefx : Option String) (dbg : Option String) : Guesses :=
  let g1 :=
    match dbg with
    | some dp =>
      { g0 with PATH := g0.PATH ++ [pjoin (pjoin (pjoin dp "gdb") "intel64") "bin"] }
    | none => g0
  let g2 :=
    match prefx with
    | some p =>
      if ((!(p = "" : Bool)) && fs.isdir p) = true then
        let g := mapGuesses (fun subdir => pjoin p subdir) g1
        let g := { g with LD_LIBRARY_PATH := g.LD_LIBRARY_PATH ++ ["daal/lib/intel64_lin"] }
        let g := { g with CPATH := g.CPATH ++ [] }
        let g := { g with PATH := g.PATH ++
          ["daal/bin", "advisor/bin64", "advisor_xe/bin64", "inspector/bin64",
           "inspector_xe/bin64"] }
        let g := { g with MANPATH := g.MANPATH ++
          ["man/common",
           docpath ++ "/en/debugger//gdb-mic/man",
           docpath ++ "/en/debugger//gdb-igfx/man",
           docpath ++ "/en/debugger//gdb-ia/man"] }
        let g := { g with INFOPATH := g.INFOPATH ++
          [docpath ++ "/en/debugger//gdb-mic/info",
           docpath ++ "/en/debugger//gdb-ia/info",
           docpath ++ "/en/debugger//gdb-igfx/info"] }
        match dbg with
        | some dp =>
          let g := { g with LD_LIBRARY_PATH := g.LD_LIBRARY_PATH ++
            [pjoin dp "libipt/intel64/lib", pjoin dp "iga/lib"] }
          let cands := [pjoin dp "gdb/intel64_mic/bin/gdb-mic",
                        pjoin dp "gdb/intel64/bin/gdb-ia"]
          let gdbcross :=
            match cands.find? (fun c => fs.isfile c) with
            | some c => [c]
            | none => cands
          let g := { g with GDB_CROSS := some gdbcross }
          let gdbservers := [pjoin dp "gdb/targets/intel64/x200/bin/gdbserver",
                             pjoin dp "gdb/targets/mic/bin/gdbserver"]
          { g with GDBSERVER_MIC := some gdbservers }
        | none => g
      else g1
    | none => g1
  let g3 :=
    if fs.isfile (pjoin "bin/intel64" "idb") = true then
      { g2 with IDB_HOME := some ["bin/intel64"] }
    else g2
  { g3 with LIBRARY_PATH := some g3.LD_LIBRARY_PATH }

/-- The `EB_intel.make_module_req_guess` method: the full guess-map construction. -/
def make_module_req_guess (cfg : Cfg) (fs : FS) (tbbgcc : String) :
    Except String Guesses :=
  match guess_branch cfg fs tbbgcc with
  | .error e => .error e
  | .ok (g, prefx, dbg) =>
    .ok (guess_post fs ("documentation_" ++ dotHead cfg.official_version) g prefx dbg)

/-! ### Projections used to state the claims -/

/-- The `prefix` value computed by the first half of `make_module_req_guess`
(`none` on the error path). -/
def prefixOf (r : Except String (Guesses × Option String × Option String)) :
    Option String :=
  match r with
  | .ok x => x.2.1
  | .error _ => none

/-- The `self.debuggerpath` value computed by the first half of
`make_module_req_guess` (`none` on the error path). -/
def debuggerOf (r : Except String (Guesses × Option String × Option String)) :
    Option String :=
  match r with
  | .ok x => x.2.2
  | .error _ => none

/-- The guesses carried by the first half of `make_module_req_guess`. -/
def branchGuessesOf (r : Except String (Guesses × Option String × Option String)) :
    Option Guesses :=
  match r with
  | .ok x => some x.1
  | .error _ => none

/-- The last `LD_LIBRARY_PATH` entry of a returned guess map. -/
def lastLD (r : Except String Guesses) : Option String :=
  match r with
  | .ok g => g.LD_LIBRARY_PATH.getLast?
  | .error _ => none

/-- The `INFOPATH` list of a returned guess map. -/
def infoOf (r : Except String Guesses) : Option (List String) :=
  match r with
  | .ok g => some g.INFOPATH
  | .error _ => none

/-- The `GDB_CROSS` entry of a returned guess map (absent key or error:
`none`). -/
def gdbCrossOf (r : Except String Guesses) : Option (List String) :=
  match r with
  | .ok g => g.GDB_CROSS
  | .error _ => none

/-- The `GDBSERVER_MIC` entry of a returned guess map (absent key or error:
`none`). -/
def gdbServerOf (r : Except String Guesses) : Option (List String) :=
  match r with
  | .ok g => g.GDBSERVER_MIC
  | .error _ => none

/-- Whether the step-6 prefix rewrite fires for a given probe and `prefix`
value (`if prefix and os.path.isdir(os.path.join(self.installdir, prefix))`). -/
def rewriteApplied (fs : FS) (p : Option String) : Bool :=
  match p with
  | some s => (!(s = "" : Bool)) && fs.isdir s
  | none => false

/-- A probe on which nothing exists. -/
def fsNone : FS where
  isdir := fun _ => false
  isfile := fun _ => false

/-- A probe on which exactly the 2016.0.109 comp-libs subdirectory exists. -/
def fsCompLibs : FS where
  isdir := fun p => p = "compilers_and_libraries_2016.0.109/linux"
  isfile := fun _ => false

example : parseVersion "2013_sp1" =
    [.num 2013, .str [95], .str [115, 112], .num 1] := by decide
example : vlt (parseVersion "2013") (parseVersion "2013_sp1") := by decide
example : vlt (parseVersion "2013_sp1") (parseVersion "2014") := by decide
example : vge (parseVersion "2016.0.109") (parseVersion "2016") := by decide
example : resolve_layout "2012" = ("bin/intel64", "compiler/lib/intel64") := by decide
example : resolve_layout "2013_sp1" = ("bin", "lib/intel64") := by decide
example : pjoin "a" "b" = "a/b" := by decide
example : dotHead "2013_sp1" = "2013_sp1" := by decide
example : dotHead "2016.0.109" = "2016" := by decide

/-! ### Generic string lemmas -/

theorem string_append_assoc (a b c : String) : (a ++ b) ++ c = a ++ (b ++ c) := by
  rcases a with ⟨la⟩
  rcases b with ⟨lb⟩
  rcases c with ⟨lc⟩
  show String.mk ((la ++ lb) ++ lc) = String.mk (la ++ (lb ++ lc))
  rw [List.append_assoc]

/-! ### Claims -/

/-- Claim C4: the layout thresholds.  The defaults are binary prefix
`bin/intel64` and library prefix `lib/intel64`; for version >= 2011 the binary
prefix becomes `bin` when version <= `2011.3.174` or version >= `2013_sp1`,
and otherwise the library prefix becomes `compiler/lib/intel64`; resolving
`2012` yields library prefix `compiler/lib/intel64` and resolving `2013_sp1`
yields binary prefix `bin`; and the comp-libs subdirectory equals
`compilers_and_libraries_<version>/linux` exactly when version >= 2016. -/
theorem C4_thm : ∀ v : String,
    (resolve_layout v =
      if vge (parseVersion v) (parseVersion "2011") then
        if vle (parseVersion v) (parseVersion "2011.3.174")
            ∨ vge (parseVersion v) (parseVersion "2013_sp1")
        then ("bin", "lib/intel64")
        else ("bin/intel64", "compiler/lib/intel64")
      else ("bin/intel64", "lib/intel64"))
    ∧ (resolve_layout "2012").2 = "compiler/lib/intel64"
    ∧ (resolve_layout "2013_sp1").1 = "bin"
    ∧ comp_libs_subdir v =
        (if vge (parseVersion v) (parseVersion "2016")
         then some (pjoin ("compilers_and_libraries_" ++ v) "linux") else none) := by
  intro v
  refine ⟨?_, by decide, by decide, rfl⟩
  unfold resolve_layout
  split_ifs <;> first | rfl | tauto

/-- Claim C5: the version comparison is a total order on parsed versions
(reflexively equal, antisymmetric in the sense that mutual comparison equal
means equal token lists, involutive under swapping arguments — hence total —
and transitive), and orders the release sequence
`2011.3.174 < 2013_sp1 < 2014 < 2016.0.109`, with `2013_sp1` greater than
`2013` and less than `2014`. -/
theorem C5_thm :
    (∀ a : List VTok, vcmp a a = Ordering.eq)
    ∧ (∀ a b : List VTok, vcmp a b = Ordering.eq ↔ a = b)
    ∧ (∀ a b : List VTok, (vcmp a b).swap = vcmp b a)
    ∧ (∀ a b c : List VTok,
        vcmp a b = Ordering.lt → vcmp b c = Ordering.lt → vcmp a c = Ordering.lt)
    ∧ vlt (parseVersion "2011.3.174") (parseVersion "2013_sp1")
    ∧ vlt (parseVersion "2013_sp1") (parseVersion "2014")
    ∧ vlt (parseVersion "2014") (parseVersion "2016.0.109")
    ∧ vlt (parseVersion "2013") (parseVersion "2013_sp1") :=
  ⟨vcmp_self, vcmp_eq_iff, vcmp_swap, fun _ _ _ h1 h2 => vcmp_lt_trans h1 h2,
   by decide, by decide, by decide, by decide⟩

/-- Witness for C5: transitivity applied at concrete parsed versions. -/
theorem C5_witness :
    vcmp (parseVersion "2011.3.174") (parseVersion "2014") = Ordering.lt :=
  C5_thm.2.2.2.1 (parseVersion "2011.3.174") (parseVersion "2013_sp1")
    (parseVersion "2014") (by decide) (by decide)

/-- Claim C7: the sanity-check spec contains `icc` and `icpc` under the
resolved binary prefix, plus `idb` exactly when version < 2014; the static
and shared `iomp5` libraries under the resolved library prefix; the header
`include/omp.h` exactly when version > 2015; the comp-libs subdirectory in
the required-directories list exactly when it is present; and exactly one
smoke-test command, `which icc`. -/
theorem C7_thm : ∀ (v : String) (ext : String),
    sanity_check_step v ext =
      { files :=
          [pjoin (resolve_layout v).1 "icc", pjoin (resolve_layout v).1 "icpc"]
          ++ (if vlt (parseVersion v) (parseVersion "2014")
              then [pjoin (resolve_layout v).1 "idb"] else [])
          ++ [pjoin (resolve_layout v).2 "libiomp5.a",
              pjoin (resolve_layout v).2 ("libiomp5." ++ ext)]
          ++ (if vgt (parseVersion v) (parseVersion "2015")
              then ["include/omp.h"] else []),
        dirs := (comp_libs_subdir v).toList,
        commands := ["which icc"] } := by
  intro v ext
  unfold sanity_check_step
  have hcat : ("lib" : String) ++ "iomp5." = "libiomp5." := by decide
  have hlib : ("lib" : String) ++ ("iomp5." ++ ext) = "libiomp5." ++ ext := by
    rw [← string_append_assoc, hcat]
  split_ifs with h1 h2 <;>
    cases hcl : comp_libs_subdir v <;>
      simp [hcl, hlib, List.map]

/-- Claim C8: the silent-configuration selector returns the legacy naming map
(activation-name and license-file-name keys) exactly when version < `2013_sp1`
and `none` for `2013_sp1` and later, and the install step passes the selected
map to the installer invocation, which precedes the license copy; concretely,
`2012.1.100` selects the legacy map and `2013_sp1` selects `none`. -/
theorem C8_thm : ∀ v : String,
    (silent_cfg_names_map v =
        some { activation_name := ACTIVATION_NAME_2012,
               license_file_name := LICENSE_FILE_NAME_2012 }
      ↔ vlt (parseVersion v) (parseVersion "2013_sp1"))
    ∧ (silent_cfg_names_map v = none
      ↔ ¬ vlt (parseVersion v) (parseVersion "2013_sp1"))
    ∧ install_step v =
        [InstallEvent.runInstaller (silent_cfg_names_map v), InstallEvent.copyLicense]
    ∧ silent_cfg_names_map "2012.1.100" =
        some { activation_name := ACTIVATION_NAME_2012,
               license_file_name := LICENSE_FILE_NAME_2012 }
    ∧ silent_cfg_names_map "2013_sp1" = none := by
  intro v
  refine ⟨?_, ?_, rfl, by decide, by decide⟩ <;>
    · unfold silent_cfg_names_map
      split_ifs with h <;> simp [h]

/-- Witness for C8: the selector iff applied at a concrete pre-`2013_sp1`
version. -/
theorem C8_witness :
    silent_cfg_names_map "2012.1.100" =
      some { activation_name := ACTIVATION_NAME_2012,
             license_file_name := LICENSE_FILE_NAME_2012 } :=
  (C8_thm "2012.1.100").1.mpr (by decide)

/-! ### Reduction lemmas for the guess construction -/

/-- The `prefix` value of the first half of `make_module_req_guess` for a
64-bit configuration with hidden MPI. -/
theorem prefixOf_branch_64 (v : String) (fs : FS) (t : String) :
    prefixOf (guess_branch ⟨v, false, true⟩ fs t) =
      if vlt (parseVersion v) (parseVersion "2016")
      then some (resolve_composer_dir v fs)
      else comp_libs_subdir v := by
  simp only [guess_branch, Bool.false_eq_true, Bool.true_eq_false, if_false, prefixOf]
  split <;> rfl

/-- The `self.debuggerpath` value of the first half of
`make_module_req_guess` for a 64-bit configuration with hidden MPI. -/
theorem debuggerOf_branch_64 (v : String) (fs : FS) (t : String) :
    debuggerOf (guess_branch ⟨v, false, true⟩ fs t) =
      if vlt (parseVersion v) (parseVersion "2016")
      then (if vge (parseVersion v) (parseVersion "2015")
            then some (pjoin (resolve_composer_dir v fs) "debugger") else none)
      else some ("debugger_" ++ dotHead v) := by
  simp only [guess_branch, Bool.false_eq_true, Bool.true_eq_false, if_false, debuggerOf]
  split <;> rfl

/-- With MPI hidden, the first half of `make_module_req_guess` never fails. -/
theorem branch_ne_error (v : String) (m : Bool) (fs : FS) (t : String) (e : String) :
    guess_branch ⟨v, m, true⟩ fs t ≠ .error e := by
  cases m <;>
    simp only [guess_branch, Bool.false_eq_true, Bool.true_eq_false, if_false,
      eq_self_iff_true, if_true] <;>
    intro h <;> cases h

/-- Structure of the guesses produced by a successful first half of
`make_module_req_guess`: `INFOPATH` holds exactly the documentation
directory, `GDB_CROSS` and `GDBSERVER_MIC` are absent, and
`LD_LIBRARY_PATH` ends with `lib/intel64` in the 64-bit case. -/
theorem branch_shape (cfg : Cfg) (fs : FS) (t : String) :
    ∀ gpd, guess_branch cfg fs t = .ok gpd →
      gpd.1.INFOPATH = ["documentation_" ++ dotHead cfg.official_version]
      ∧ gpd.1.GDB_CROSS = none
      ∧ gpd.1.GDBSERVER_MIC = none
      ∧ (cfg.m32 = false → gpd.1.LD_LIBRARY_PATH.getLast? = some "lib/intel64") := by
  obtain ⟨v, m, hm⟩ := cfg
  intro gpd h
  cases m <;> cases hm <;>
    simp only [guess_branch, Bool.false_eq_true, Bool.true_eq_false, if_false,
      eq_self_iff_true, if_true] at h
  · cases h
  · injection h with h'
    subst h'
    refine ⟨?_, ?_, ?_, fun _ => ?_⟩ <;> split <;> rfl
  · injection h with h'
    subst h'
    exact ⟨rfl, rfl, rfl, fun hx => Bool.noConfusion hx⟩
  · injection h with h'
    subst h'
    exact ⟨rfl, rfl, rfl, fun hx => Bool.noConfusion hx⟩

/-- Claim C2 (amended to the 64-bit path, on which the `prefix` value is
computed at all): with the 32-bit flag false and MPI hidden, for version >=
2016 the prefix for the fragment rewrite equals the comp-libs subdirectory
`compilers_and_libraries_<version>/linux`, and for version < 2016 it is
`composer_xe_<version>`, replaced by `composerxe-<version>` exactly when the
former is not a directory under the install root and the latter is. -/
theorem C2_thm : ∀ (v : String) (fs : FS) (t : String),
    (vge (parseVersion v) (parseVersion "2016") →
      prefixOf (guess_branch ⟨v, false, true⟩ fs t) =
        some (pjoin ("compilers_and_libraries_" ++ v) "linux"))
    ∧ (vlt (parseVersion v) (parseVersion "2016") →
      prefixOf (guess_branch ⟨v, false, true⟩ fs t) =
        some (if fs.isdir ("composer_xe_" ++ v) = false
                  ∧ fs.isdir ("composerxe-" ++ v) = true
              then "composerxe-" ++ v
              else "composer_xe_" ++ v)) := by
  intro v fs t
  constructor
  · intro hge
    have hnlt : ¬ vlt (parseVersion v) (parseVersion "2016") := hge
    rw [prefixOf_branch_64, if_neg hnlt]
    unfold comp_libs_subdir
    rw [if_pos hge]
  · intro hlt
    rw [prefixOf_branch_64, if_pos hlt]
    congr 1
    unfold resolve_composer_dir
    by_cases h1 : fs.isdir ("composer_xe_" ++ v) = false
    · by_cases h2 : fs.isdir ("composerxe-" ++ v) = true
      · simp [h1, h2]
      · simp [h1, h2]
    · simp [h1]

/-- Witness for C2 at a concrete version with the >= 2016 layout. -/
theorem C2_witness :
    prefixOf (guess_branch ⟨"2016.0.109", false, true⟩ fsNone "gcc4.7") =
      some (pjoin ("compilers_and_libraries_" ++ "2016.0.109") "linux") :=
  (C2_thm "2016.0.109" fsNone "gcc4.7").1 (by decide)

/-- Counterexample for C2 as stated: with the 32-bit flag true, the `prefix`
value is never computed (it stays `None`), so for version `2016.0.109` it
does not equal the comp-libs subdirectory. -/
theorem C2_cex :
    ¬ (prefixOf (guess_branch ⟨"2016.0.109", true, true⟩ fsNone "gcc4.7") =
        some (pjoin ("compilers_and_libraries_" ++ "2016.0.109") "linux")) := by
  decide

/-- Claim C3 (amended): on the 64-bit path with MPI hidden, the debugger
subdirectory is set exactly when version >= 2015; its value is
`<prefix>/debugger` (with `<prefix>` the resolved composer directory, not
`debugger/<version>`) when 2015 <= version < 2016, and
`debugger_<leading dot-component>` when version >= 2016. -/
theorem C3_thm : ∀ (v : String) (fs : FS) (t : String),
    ((debuggerOf (guess_branch ⟨v, false, true⟩ fs t)).isSome
        ↔ vge (parseVersion v) (parseVersion "2015"))
    ∧ (vge (parseVersion v) (parseVersion "2015") →
        vlt (parseVersion v) (parseVersion "2016") →
        debuggerOf (guess_branch ⟨v, false, true⟩ fs t) =
          some (pjoin (resolve_composer_dir v fs) "debugger"))
    ∧ (vge (parseVersion v) (parseVersion "2016") →
        debuggerOf (guess_branch ⟨v, false, true⟩ fs t) =
          some ("debugger_" ++ dotHead v)) := by
  intro v fs t
  refine ⟨?_, ?_, ?_⟩
  · rw [debuggerOf_branch_64]
    by_cases hlt : vlt (parseVersion v) (parseVersion "2016")
    · rw [if_pos hlt]
      by_cases hge : vge (parseVersion v) (parseVersion "2015")
      · simp only [if_pos hge, Option.isSome_some, true_iff]
        exact hge
      · simp only [if_neg hge, Option.isSome_none, Bool.false_eq_true, false_iff]
        exact hge
    · rw [if_neg hlt]
      simp only [Option.isSome_some, true_iff]
      intro hl
      exact hlt (vcmp_lt_trans hl (by decide))
  · intro hge hlt
    rw [debuggerOf_branch_64, if_pos hlt, if_pos hge]
  · intro hge16
    have hnlt : ¬ vlt (parseVersion v) (parseVersion "2016") := hge16
    rw [debuggerOf_branch_64, if_neg hnlt]

/-- Witness for C3 at version `2015.0` on the 64-bit path. -/
theorem C3_witness :
    debuggerOf (guess_branch ⟨"2015.0", false, true⟩ fsNone "gcc4.7") =
      some (pjoin (resolve_composer_dir "2015.0" fsNone) "debugger") :=
  (C3_thm "2015.0" fsNone "gcc4.7").2.1 (by decide) (by decide)

/-- Counterexample for C3 as stated: for version `2015.0` (pre-2016 layout)
the debugger subdirectory is `composer_xe_2015.0/debugger`, not
`debugger/2015.0` as the claim says. -/
theorem C3_cex :
    debuggerOf (guess_branch ⟨"2015.0", false, true⟩ fsNone "gcc4.7") =
        some "composer_xe_2015.0/debugger"
    ∧ ¬ (debuggerOf (guess_branch ⟨"2015.0", false, true⟩ fsNone "gcc4.7") =
        some "debugger/2015.0") := by
  constructor <;> decide

/-- When the prefix rewrite does not fire, the second half of
`make_module_req_guess` leaves `LD_LIBRARY_PATH` unchanged. -/
theorem guess_post_LD_no_rewrite (fs : FS) (dc : String) (g : Guesses)
    (p d : Option String) (h : rewriteApplied fs p = false) :
    (guess_post fs dc g p d).LD_LIBRARY_PATH = g.LD_LIBRARY_PATH := by
  cases p with
  | none => cases d <;> simp only [guess_post] <;> split <;> rfl
  | some s =>
    simp only [rewriteApplied] at h
    cases d <;> simp only [guess_post, h, Bool.false_eq_true, if_false] <;>
      split <;> rfl

/-- The `INFOPATH` list produced by the second half of
`make_module_req_guess`: the input list, prefix-rewritten and extended with
the three debugger info directories when the rewrite fires. -/
theorem guess_post_INFOPATH (fs : FS) (dc : String) (g : Guesses)
    (p d : Option String) :
    (guess_post fs dc g p d).INFOPATH =
      match p with
      | some s =>
        if ((!(s = "" : Bool)) && fs.isdir s) = true then
          g.INFOPATH.map (fun x => pjoin s x) ++
            [dc ++ "/en/debugger//gdb-mic/info", dc ++ "/en/debugger//gdb-ia/info",
             dc ++ "/en/debugger//gdb-igfx/info"]
        else g.INFOPATH
      | none => g.INFOPATH := by
  cases p with
  | none => cases d <;> simp only [guess_post] <;> split <;> rfl
  | some s =>
    by_cases hc : ((!(s = "" : Bool)) && fs.isdir s) = true
    · cases d <;> simp only [guess_post, if_pos hc] <;> split <;>
        simp [mapGuesses]
    · cases d <;> simp only [guess_post, if_neg hc] <;> split <;> rfl

/-- First-match selection over the two `GDB_CROSS` candidates. -/
theorem find2_eq (f : String → Bool) (c1 c2 : String) :
    (match List.find? f [c1, c2] with
     | some c => [c]
     | none => [c1, c2]) =
      (if f c1 = true then [c1]
       else if f c2 = true then [c2]
       else [c1, c2]) := by
  by_cases h1 : f c1 = true
  · simp [List.find?, h1]
  · by_cases h2 : f c2 = true <;> simp [List.find?, h1, h2]

/-- The `GDB_CROSS` and `GDBSERVER_MIC` entries produced by the second half
of `make_module_req_guess`, starting from guesses in which both are absent:
both are set exactly when the rewrite fires and the debugger path is set;
`GDB_CROSS` keeps the first candidate whose file exists (both when neither
does) and `GDBSERVER_MIC` is the fixed two-entry candidate list. -/
theorem guess_post_GDB (fs : FS) (dc : String) (g : Guesses)
    (p d : Option String) (hC : g.GDB_CROSS = none) (hS : g.GDBSERVER_MIC = none) :
    (guess_post fs dc g p d).GDB_CROSS =
      (match p, d with
       | some s, some dp =>
         if ((!(s = "" : Bool)) && fs.isdir s) = true then
           some (if fs.isfile (pjoin dp "gdb/intel64_mic/bin/gdb-mic") = true
                 then [pjoin dp "gdb/intel64_mic/bin/gdb-mic"]
                 else if fs.isfile (pjoin dp "gdb/intel64/bin/gdb-ia") = true
                 then [pjoin dp "gdb/intel64/bin/gdb-ia"]
                 else [pjoin dp "gdb/intel64_mic/bin/gdb-mic",
                       pjoin dp "gdb/intel64/bin/gdb-ia"])
         else none
       | _, _ => none)
    ∧ (guess_post fs dc g p d).GDBSERVER_MIC =
      (match p, d with
       | some s, some dp =>
         if ((!(s = "" : Bool)) && fs.isdir s) = true then
           some [pjoin dp "gdb/targets/intel64/x200/bin/gdbserver",
                 pjoin dp "gdb/targets/mic/bin/gdbserver"]
         else none
       | _, _ => none) := by
  cases p with
  | none =>
    cases d <;> simp only [guess_post] <;>
      constructor <;> split <;> first | exact hC | exact hS
  | some s =>
    by_cases hcond : ((!(s = "" : Bool)) && fs.isdir s) = true
    · cases d with
      | none =>
        simp only [guess_post, if_pos hcond]
        constructor <;> split <;> simp [mapGuesses, hC, hS]
      | some dp =>
        simp only [guess_post, if_pos hcond]
        constructor <;> split <;> simp [find2_eq]
    · cases d <;> simp only [guess_post, if_neg hcond] <;>
        constructor <;> split <;> first | exact hC | exact hS

/-- Claim C1 (amended): on the 64-bit path with MPI hidden, whenever the
step-6 prefix rewrite does not fire, the returned guess map's
`LD_LIBRARY_PATH` list has `lib/intel64` as its last entry.  (As stated the
claim is false: on the 32-bit path the list ends with `lib/ia32`, and when
the rewrite fires the code appends further daal and debugger fragments after
the prefix-qualified `lib/intel64`.) -/
theorem C1_thm : ∀ (v : String) (fs : FS) (t : String),
    rewriteApplied fs (prefixOf (guess_branch ⟨v, false, true⟩ fs t)) = false →
    lastLD (make_module_req_guess ⟨v, false, true⟩ fs t) = some "lib/intel64" := by
  intro v fs t hra
  cases hb : guess_branch ⟨v, false, true⟩ fs t with
  | error e => exact absurd hb (branch_ne_error v false fs t e)
  | ok gpd =>
    obtain ⟨g, p, d⟩ := gpd
    obtain ⟨-, -, -, hLD⟩ := branch_shape ⟨v, false, true⟩ fs t (g, p, d) hb
    rw [hb] at hra
    simp only [prefixOf] at hra
    unfold make_module_req_guess
    rw [hb]
    simp only [lastLD]
    rw [guess_post_LD_no_rewrite fs _ g p d hra]
    exact hLD rfl

/-- Witness for C1 at version 2013 with a probe reporting nothing present. -/
theorem C1_witness :
    rewriteApplied fsNone
        (prefixOf (guess_branch ⟨"2013", false, true⟩ fsNone "gcc4.7")) = false
    ∧ lastLD (make_module_req_guess ⟨"2013", false, true⟩ fsNone "gcc4.7") =
        some "lib/intel64" :=
  ⟨by decide, C1_thm "2013" fsNone "gcc4.7" (by decide)⟩

/-- Counterexample for C1 as stated: with the 32-bit flag set, the
`LD_LIBRARY_PATH` list ends with `lib/ia32`, not `lib/intel64`. -/
theorem C1_cex :
    lastLD (make_module_req_guess ⟨"2016.0.109", true, true⟩ fsNone "gcc4.7") =
        some "lib/ia32"
    ∧ ¬ (lastLD (make_module_req_guess ⟨"2016.0.109", true, true⟩ fsNone "gcc4.7") =
        some "lib/intel64") := by
  constructor <;> decide

/-- Claim C9 (amended): the documentation-directory name seeded into
`INFOPATH` and reused by the step-6 `INFOPATH` extensions is
`documentation_<t>` where `<t>` is the part of the version string before the
first dot — not its leading numeric component; for `2013_sp1` the name is
`documentation_2013_sp1`. -/
theorem C9_thm : ∀ (v : String) (m : Bool) (fs : FS) (t : String),
    infoOf (make_module_req_guess ⟨v, m, true⟩ fs t) =
      some (match prefixOf (guess_branch ⟨v, m, true⟩ fs t) with
            | some p =>
              if ((!(p = "" : Bool)) && fs.isdir p) = true then
                [pjoin p ("documentation_" ++ dotHead v),
                 ("documentation_" ++ dotHead v) ++ "/en/debugger//gdb-mic/info",
                 ("documentation_" ++ dotHead v) ++ "/en/debugger//gdb-ia/info",
                 ("documentation_" ++ dotHead v) ++ "/en/debugger//gdb-igfx/info"]
              else ["documentation_" ++ dotHead v]
            | none => ["documentation_" ++ dotHead v]) := by
  intro v m fs t
  cases hb : guess_branch ⟨v, m, true⟩ fs t with
  | error e => exact absurd hb (branch_ne_error v m fs t e)
  | ok gpd =>
    obtain ⟨g, p, d⟩ := gpd
    obtain ⟨hI, -, -, -⟩ := branch_shape ⟨v, m, true⟩ fs t (g, p, d) hb
    unfold make_module_req_guess
    rw [hb]
    simp only [infoOf, prefixOf]
    rw [guess_post_INFOPATH]
    congr 1
    cases p with
    | none => exact hI
    | some s =>
      split
      · rw [hI]
        rfl
      · exact hI

/-- Counterexample for C9 as stated: for version `2013_sp1` the seeded
documentation-directory name is `documentation_2013_sp1`, not
`documentation_2013` as the leading-numeric-component rule would give. -/
theorem C9_cex :
    infoOf (make_module_req_guess ⟨"2013_sp1", false, true⟩ fsNone "gcc4.7") =
        some ["documentation_2013_sp1"]
    ∧ ¬ (infoOf (make_module_req_guess ⟨"2013_sp1", false, true⟩ fsNone "gcc4.7") =
        some ["documentation_2013"]) := by
  constructor <;> decide

/-- Claim C10: `GDB_CROSS` and `GDBSERVER_MIC` appear in the returned guess
map exactly when the prefix is set, the probe reports the prefix directory
present under the install root (the rewrite condition), and the debugger
subdirectory is set; when present, `GDB_CROSS` holds the first of the two
candidates (`gdb-mic` then `gdb-ia`) whose file the probe reports present,
keeping both candidates in order when neither exists, and `GDBSERVER_MIC` is
always the fixed two-entry candidate list under the debugger path. -/
theorem C10_thm : ∀ (cfg : Cfg) (fs : FS) (t : String),
    ((gdbCrossOf (make_module_req_guess cfg fs t)).isSome = true
      ↔ (rewriteApplied fs (prefixOf (guess_branch cfg fs t)) = true
         ∧ (debuggerOf (guess_branch cfg fs t)).isSome = true))
    ∧ ((gdbServerOf (make_module_req_guess cfg fs t)).isSome = true
      ↔ (rewriteApplied fs (prefixOf (guess_branch cfg fs t)) = true
         ∧ (debuggerOf (guess_branch cfg fs t)).isSome = true))
    ∧ (∀ dp, rewriteApplied fs (prefixOf (guess_branch cfg fs t)) = true →
        debuggerOf (guess_branch cfg fs t) = some dp →
        gdbCrossOf (make_module_req_guess cfg fs t) =
          some (if fs.isfile (pjoin dp "gdb/intel64_mic/bin/gdb-mic") = true
                then [pjoin dp "gdb/intel64_mic/bin/gdb-mic"]
                else if fs.isfile (pjoin dp "gdb/intel64/bin/gdb-ia") = true
                then [pjoin dp "gdb/intel64/bin/gdb-ia"]
                else [pjoin dp "gdb/intel64_mic/bin/gdb-mic",
                      pjoin dp "gdb/intel64/bin/gdb-ia"])
        ∧ gdbServerOf (make_module_req_guess cfg fs t) =
          some [pjoin dp "gdb/targets/intel64/x200/bin/gdbserver",
                pjoin dp "gdb/targets/mic/bin/gdbserver"]) := by
  intro cfg fs t
  cases hb : guess_branch cfg fs t with
  | error e =>
    unfold make_module_req_guess
    rw [hb]
    simp [gdbCrossOf, gdbServerOf, prefixOf, debuggerOf, rewriteApplied]
  | ok gpd =>
    obtain ⟨g, p, d⟩ := gpd
    obtain ⟨-, hC, hS, -⟩ := branch_shape cfg fs t (g, p, d) hb
    unfold make_module_req_guess
    rw [hb]
    simp only [gdbCrossOf, gdbServerOf, prefixOf, debuggerOf]
    obtain ⟨hG1, hG2⟩ :=
      guess_post_GDB fs ("documentation_" ++ dotHead cfg.official_version) g p d hC hS
    rw [hG1, hG2]
    refine ⟨?_, ?_, ?_⟩
    · cases p with
      | none => simp [rewriteApplied]
      | some s =>
        cases d with
        | none => simp [rewriteApplied]
        | some dp =>
          simp only [rewriteApplied, Option.isSome_some, and_true]
          split <;> simp_all
    · cases p with
      | none => simp [rewriteApplied]
      | some s =>
        cases d with
        | none => simp [rewriteApplied]
        | some dp =>
          simp only [rewriteApplied, Option.isSome_some, and_true]
          split <;> simp_all
    · intro dp hra hd
      cases p with
      | none => simp [rewriteApplied] at hra
      | some s =>
        cases d with
        | none => cases hd
        | some dp' =>
          injection hd with hd'
          subst hd'
          simp only [rewriteApplied] at hra
          simp only [if_pos hra]
          exact ⟨trivial, trivial⟩

/-- Witness for C10: at version `2016.0.109` with the comp-libs directory
present and no candidate gdb binary on disk, both keys appear and
`GDB_CROSS` keeps both candidates. -/
theorem C10_witness :
    gdbCrossOf (make_module_req_guess ⟨"2016.0.109", false, true⟩ fsCompLibs "gcc4.7") =
      some (if fsCompLibs.isfile (pjoin "debugger_2016" "gdb/intel64_mic/bin/gdb-mic") = true
            then [pjoin "debugger_2016" "gdb/intel64_mic/bin/gdb-mic"]
            else if fsCompLibs.isfile (pjoin "debugger_2016" "gdb/intel64/bin/gdb-ia") = true
            then [pjoin "debugger_2016" "gdb/intel64/bin/gdb-ia"]
            else [pjoin "debugger_2016" "gdb/intel64_mic/bin/gdb-mic",
                  pjoin "debugger_2016" "gdb/intel64/bin/gdb-ia"])
    ∧ gdbServerOf (make_module_req_guess ⟨"2016.0.109", false, true⟩ fsCompLibs "gcc4.7") =
      some [pjoin "debugger_2016" "gdb/targets/intel64/x200/bin/gdbserver",
            pjoin "debugger_2016" "gdb/targets/mic/bin/gdbserver"] :=
  (C10_thm ⟨"2016.0.109", false, true⟩ fsCompLibs "gcc4.7").2.2 "debugger_2016"
    (by decide) (by decide)

/-- Claim C6 (code bug): with MPI not hidden on the 64-bit path, the code
calls `list.append` with two arguments
(`guesses['LD_LIBRARY_PATH'].append('mpi/mic/lib', 'mpi/intel64/lib')`),
which raises a `TypeError` instead of extending the lists with the MPI
fragments; the embedded construction returns the corresponding error. -/
theorem C6_thm :
    make_module_req_guess ⟨"2016.0.109", false, false⟩ fsNone "gcc4.7" =
      Except.error "TypeError: append() takes exactly one argument (2 given)" := rfl
